import Mathlib

/-!
Shallow embedding of the two-stage HTML processing-and-analysis pipeline
(`problem3/processor/process.py` and `problem3/analyzer/analyze.py`).

Conventions of the embedding:
* Python strings are Lean `String` / `List Char`; byte-level details and
  timestamps are not modelled.
* Python `float` ratios are modelled over `ℚ`; every division in the source
  is guarded by the same zero test as the source.
* File-system I/O becomes explicit data: a directory listing is a
  `List String` of filenames, a read is a function `String → Except String
  String` (an `Except.error` models an uncaught Python exception raised by
  `open`/`read`), and the writes a stage performs are collected in an
  ordered trace.
* Regular-expression steps of the source are implemented as fuel-indexed
  character scanners with the exact semantics of the patterns used
  (leftmost, non-overlapping matches).
-/

deriving instance DecidableEq for Except

/-! ### Analyzer: tokenisation (analyze.py, `WORD_RE.findall` + `lower`) -/

/-- Python `\w` on the ASCII inputs considered: letters, digits, underscore. -/
def isWordChar (c : Char) : Bool := c.isAlphanum || c == '_'

/-- Semantics of `WORD_RE.findall`: the maximal runs of word characters, in order.
Matches of `\b\w+\b` are exactly the maximal `\w` runs. Fuel-indexed; the
caller passes the length of the input, which suffices since every step
consumes at least one character. -/
def findWords : Nat → List Char → List (List Char)
  | 0, _ => []
  | _, [] => []
  | fuel + 1, c :: cs =>
    if isWordChar c then
      let w := (c :: cs).takeWhile isWordChar
      w :: findWords fuel ((c :: cs).drop w.length)
    else
      findWords fuel cs

/-- analyze.py line 46: `[w.lower() for w in WORD_RE.findall(text)]`. -/
def pyTokens (text : String) : List String :=
  (findWords text.data.length text.data).map (fun w => ⟨w.map Char.toLower⟩)

/-! ### Analyzer: Jaccard similarity (analyze.py lines 18-24) -/

/-- Function `jaccard_similarity` from analyze.py: set intersection size over set
union size, `0.0` when the union is empty. -/
def jaccard_similarity (doc1_words doc2_words : List String) : ℚ :=
  let set1 := doc1_words.toFinset
  let set2 := doc2_words.toFinset
  let intersection := set1 ∩ set2
  let union := set1 ∪ set2
  if union ≠ ∅ then (intersection.card : ℚ) / (union.card : ℚ) else 0

/-! ### Analyzer: Counter and `most_common` (analyze.py lines 51-61) -/

/-- The items of a `collections.Counter` built from a token stream: the
distinct tokens in order of first occurrence, each with its count
(Python dicts preserve insertion order). -/
def counterItems (ws : List String) : List (String × Nat) :=
  (ws.foldl (fun acc w => if acc.contains w then acc else acc ++ [w]) []).map
    (fun w => (w, ws.count w))

/-- Stable insertion placing `x` before the first element whose count is
at most the count of `x`. -/
def insByCount (x : String × Nat) : List (String × Nat) → List (String × Nat)
  | [] => [x]
  | y :: ys => if y.2 ≤ x.2 then x :: y :: ys else y :: insByCount x ys

/-- Stable sort by descending count, as performed by
`Counter.most_common` (a stable sort of the items on the count key,
descending; ties keep first-occurrence order). -/
def isortDesc : List (String × Nat) → List (String × Nat)
  | [] => []
  | x :: xs => insByCount x (isortDesc xs)

/-- Computes `Counter(ws).most_common n`. -/
def most_common (n : Nat) (ws : List String) : List (String × Nat) :=
  (isortDesc (counterItems ws)).take n

/-! ### Analyzer: n-grams and readability formulas -/

/-- Function `ngrams` from analyze.py line 28:
`[" ".join(tokens[i:i+n]) for i in range(len(tokens)-n+1)]`. -/
def ngrams (tokens : List String) (n : Nat) : List String :=
  (List.range (tokens.length + 1 - n)).map
    (fun i => String.intercalate " " ((tokens.drop i).take n))

/-- Frequency of a word (analyze.py line 53):
`c/total_words if total_words else 0.0`. -/
def wordFrequency (c total : Nat) : ℚ :=
  if total ≠ 0 then (c : ℚ) / (total : ℚ) else 0

/-- analyze.py line 62: `max(1, total_words // 20) if total_words else 0`. -/
def sentenceEst (total : Nat) : Nat :=
  if total ≠ 0 then max 1 (total / 20) else 0

/-- analyze.py line 63:
`(total_words / sentence_est) if sentence_est else 0.0`. -/
def avgSentenceLen (total : Nat) : ℚ :=
  if sentenceEst total ≠ 0 then (total : ℚ) / (sentenceEst total : ℚ) else 0

/-- analyze.py line 64: `sum(len(w) for w in freq.elements())/total_words`
when `total_words` is nonzero, else `0.0`. `freq.elements()` yields each
distinct word count-many times, so the sum is taken over the counter
items. -/
def avgWordLen (ws : List String) : ℚ :=
  let s : Nat := ((counterItems ws).map (fun p => p.2 * p.1.length)).sum
  if ws.length ≠ 0 then (s : ℚ) / (ws.length : ℚ) else 0

/-! ### Analyzer: the report (analyze.py `main`) -/

structure FreqEntry where
  word : String
  count : Nat
  frequency : ℚ
deriving DecidableEq

structure SimEntry where
  doc1 : String
  doc2 : String
  similarity : ℚ
deriving DecidableEq

structure CountEntry where
  gram : String
  count : Nat
deriving DecidableEq

structure Readability where
  avg_sentence_length : ℚ
  avg_word_length : ℚ
  complexity_score : ℚ
deriving DecidableEq

structure Report where
  documents_processed : Nat
  total_words : Nat
  unique_words : Nat
  top_100_words : List FreqEntry
  document_similarity : List SimEntry
  top_bigrams : List CountEntry
  top_trigrams : List CountEntry
  readability : Readability
deriving DecidableEq

/-- The similarity loop of `main` (analyze.py lines 56-58). The loop body
reads `jaccard(t1, t2)`, and `jaccard` is a name defined nowhere in the
module (the function defined at line 18 is `jaccard_similarity`), so the
first iteration that executes raises `NameError`. The body executes iff
`itertools.combinations(enumerate(docs), 2)` is non-empty, i.e. iff there
are at least two documents. -/
def simLoop (docs : List (String × List String)) : Except String (List SimEntry) :=
  if 2 ≤ docs.length then
    Except.error "NameError: name jaccard is not defined"
  else
    Except.ok []

/-- All corpus tokens in document order (the generator
`(w for _, t in docs for w in t)`). -/
def corpusTokens (docs : List (String × List String)) : List String :=
  (docs.map Prod.snd).flatten

/-- Embeds `main` of analyze.py after the documents have been loaded: `docs` is the
list of `(filename, text)` pairs in the order the loader produced them.
Returns the report written to `final_report.json`, or the uncaught
exception that aborts the run. The readiness-marker wait (lines 34-37) is a
precondition: the function models one pass once the marker exists. -/
def analyzeMain (docs : List (String × String)) : Except String Report :=
  let ds := docs.map (fun d => (d.1, pyTokens d.2))
  let allToks := corpusTokens ds
  let total_words := allToks.length
  let top100 := (most_common 100 allToks).map
    (fun p => FreqEntry.mk p.1 p.2 (wordFrequency p.2 total_words))
  match simLoop ds with
  | Except.error e => Except.error e
  | Except.ok sims =>
    let bigrams := most_common 50 ((ds.map (fun d => ngrams d.2 2)).flatten)
    let trigrams := most_common 50 ((ds.map (fun d => ngrams d.2 3)).flatten)
    Except.ok
      { documents_processed := ds.length
        total_words := total_words
        unique_words := (counterItems allToks).length
        top_100_words := top100
        document_similarity := sims
        top_bigrams := bigrams.map (fun p => CountEntry.mk p.1 p.2)
        top_trigrams := trigrams.map (fun p => CountEntry.mk p.1 p.2)
        readability :=
          { avg_sentence_length := avgSentenceLen total_words
            avg_word_length := avgWordLen allToks
            complexity_score := avgSentenceLen total_words * avgWordLen allToks } }

/-! ### Processor: `strip_html` (process.py lines 17-35) -/

/-- ASCII apostrophe, written via its code point. -/
def squote : Char := Char.ofNat 39

/-- Python `\s` on the inputs considered (ASCII whitespace). -/
def isSpaceCh (c : Char) : Bool :=
  c == ' ' || c == '\t' || c == '\n' || c == '\r' || c == '\x0b' || c == '\x0c'

/-- Case-insensitive test that `s` begins with the (lower-case) pattern. -/
def ciStarts : List Char → List Char → Bool
  | [], _ => true
  | _ :: _, [] => false
  | p :: ps, c :: cs => (c.toLower == p) && ciStarts ps cs

/-- Searches for the first case-insensitive occurrence of `closePat` and
returns the remainder after it (the minimal `.*?` of the block patterns). -/
def findCloseCi (closePat : List Char) : Nat → List Char → Option (List Char)
  | 0, _ => none
  | _, [] => none
  | fuel + 1, c :: cs =>
    if ciStarts closePat (c :: cs) then some ((c :: cs).drop closePat.length)
    else findCloseCi closePat fuel cs

/-- Semantics of `re.sub(r'<openPat[^>]*>.*?</closePat>', '', s, DOTALL |
IGNORECASE)` used for script and style blocks (process.py lines 20-21):
at a case-insensitive occurrence of the opening pattern, consume the
greedy non-`>` run plus `>`, then the minimal span up to the closing
pattern, and delete the whole match; otherwise advance one character. -/
def removeBlocks (openPat closePat : List Char) : Nat → List Char → List Char
  | 0, s => s
  | _, [] => []
  | fuel + 1, c :: cs =>
    if ciStarts openPat (c :: cs) then
      let afterOpen := (c :: cs).drop openPat.length
      let inner := afterOpen.takeWhile (fun d => d != '>')
      match afterOpen.drop inner.length with
      | '>' :: rest2 =>
        match findCloseCi closePat (rest2.length + 1) rest2 with
        | some rem => removeBlocks openPat closePat fuel rem
        | none => c :: removeBlocks openPat closePat fuel cs
      | _ => c :: removeBlocks openPat closePat fuel cs
    else c :: removeBlocks openPat closePat fuel cs

/-- Semantics of `re.findall(r'attr=[\x27"]?([^\x27" >]+)', s, IGNORECASE)`
(process.py lines 24 and 27): at each case-insensitive occurrence of the
attribute pattern, optionally consume one quote, capture the maximal run
of characters outside quote/space/`>`, require it non-empty, and continue
after the match. -/
def findAttrVals (attr : List Char) : Nat → List Char → List (List Char)
  | 0, _ => []
  | _, [] => []
  | fuel + 1, c :: cs =>
    if ciStarts attr (c :: cs) then
      let r := (c :: cs).drop attr.length
      let r2 := match r with
        | q :: rest => if q == '"' || q == squote then rest else r
        | [] => r
      let val := r2.takeWhile (fun d => !(d == '"' || d == squote || d == ' ' || d == '>'))
      if val ≠ [] then val :: findAttrVals attr fuel (r2.drop val.length)
      else findAttrVals attr fuel cs
    else findAttrVals attr fuel cs

/-- Semantics of `re.sub(r'<[^>]+>', ' ', s)` (process.py line 30): a `<`
followed by a non-empty run of non-`>` characters and a `>` is replaced
by one space; an unmatched `<` is kept and scanning advances. -/
def removeTags : Nat → List Char → List Char
  | 0, s => s
  | _, [] => []
  | fuel + 1, c :: cs =>
    if c == '<' then
      let inner := cs.takeWhile (fun d => d != '>')
      match cs.drop inner.length, inner with
      | '>' :: rest2, _ :: _ => ' ' :: removeTags fuel rest2
      | _, _ => c :: removeTags fuel cs
    else c :: removeTags fuel cs

/-- Semantics of `re.sub(r'\s+', ' ', s)` (process.py line 33): each
maximal whitespace run becomes a single space. -/
def collapseWs : Nat → List Char → List Char
  | 0, s => s
  | _, [] => []
  | fuel + 1, c :: cs =>
    if isSpaceCh c then ' ' :: collapseWs fuel (cs.dropWhile isSpaceCh)
    else c :: collapseWs fuel cs

/-- Python `.strip()`: drop whitespace from both ends. -/
def stripEnds (s : List Char) : List Char :=
  ((s.dropWhile isSpaceCh).reverse.dropWhile isSpaceCh).reverse

/-- Embeds `strip_html` (process.py lines 17-35): remove script blocks,
remove style blocks, harvest `href=` and `src=` attribute values from the
block-free markup, strip the remaining tags, collapse whitespace and trim.
Returns `(text, links, images)`. -/
def strip_html (html : String) : String × List String × List String :=
  let s0 := html.data
  let s1 := removeBlocks "<script".data "</script>".data s0.length s0
  let s2 := removeBlocks "<style".data "</style>".data s1.length s1
  let links := (findAttrVals "href=".data s2.length s2).map (fun l => (⟨l⟩ : String))
  let images := (findAttrVals "src=".data s2.length s2).map (fun l => (⟨l⟩ : String))
  let t := removeTags s2.length s2
  let t2 := collapseWs t.length t
  ((⟨stripEnds t2⟩ : String), links, images)

/-! ### Processor: per-document statistics (process.py lines 58-79) -/

/-- Semantics of `SENT_RE.split(text)` with `SENT_RE = [.!?]+`: split the
text at maximal runs of sentence terminators, keeping empty fragments
(the accumulator holds the current fragment, reversed). -/
def isSentTerm (c : Char) : Bool := c == '.' || c == '!' || c == '?'

/-- Splits at maximal sentence-terminator runs, keeping empty pieces as
`re.split` does. -/
def splitSent : Nat → List Char → List Char → List (List Char)
  | _, [], acc => [acc.reverse]
  | 0, _, acc => [acc.reverse]
  | fuel + 1, c :: cs, acc =>
    if isSentTerm c then acc.reverse :: splitSent fuel (cs.dropWhile isSentTerm) []
    else splitSent fuel cs (c :: acc)

/-- Semantics of `<p\b` counting (process.py line 62, `P_TAG_RE.findall`):
non-overlapping occurrences of `<` then `p`/`P` at a word boundary. -/
def countPTags : Nat → List Char → Nat
  | 0, _ => 0
  | _, [] => 0
  | fuel + 1, c :: cs =>
    if c == '<' then
      match cs with
      | p :: rest =>
        if p.toLower == 'p' && (match rest with | [] => true | d :: _ => !isWordChar d) then
          1 + countPTags fuel rest
        else countPTags fuel cs
      | [] => 0
    else countPTags fuel cs

/-- Average word length of the processor (process.py line 69):
`(sum(len(w) for w in words)/len(words)) if words else 0.0`. -/
def procAvgWordLen (words : List (List Char)) : ℚ :=
  let s : Nat := (words.map List.length).sum
  if words ≠ [] then (s : ℚ) / (words.length : ℚ) else 0

/-- A `ProcessedDocument` record as written to the processed store
(process.py lines 65-79); the timestamp field is not modelled. -/
structure ProcessedDoc where
  source_file : String
  text : String
  word_count : Nat
  sentence_count : Nat
  paragraph_count : Nat
  avg_word_length : ℚ
  links : List String
  images : List String
deriving DecidableEq

/-- Embeds the per-document body of the processor loop (process.py lines
54-79). -/
def extractDoc (fname : String) (html : String) : ProcessedDoc :=
  let tli := strip_html html
  let text := tli.1
  let words := findWords text.data.length text.data
  let sentences := ((splitSent text.data.length text.data []).map stripEnds).filter
    (fun p => p ≠ [])
  let para0 := countPTags html.data.length html.data
  let para := if para0 = 0 ∧ text ≠ "" then 1 else para0
  { source_file := fname
    text := text
    word_count := words.length
    sentence_count := sentences.length
    paragraph_count := para
    avg_word_length := procAvgWordLen words
    links := tli.2.1
    images := tli.2.2 }

/-! ### Processor: directory pass and write trace (process.py `main`) -/

/-- Python `os.path.splitext(f)[0]` for a plain filename: everything before
the last dot, except that a dot with only dots before it (a leading-dot
name such as `.html`) does not start an extension. -/
def splitextBase (f : String) : String :=
  let r := f.data.reverse.dropWhile (fun c => c != '.')
  if r = [] then f
  else
    let base := (r.drop 1).reverse
    if base.all (fun c => c == '.') then f else ⟨base⟩

/-- Output path of a processed record (process.py line 82). -/
def outName (f : String) : String := "/shared/processed/" ++ splitextBase f ++ ".json"

/-- Python `f.endswith(ext)`. -/
def hasExt (f ext : String) : Bool := ext.data.isSuffixOf f.data

/-- Python string `<`: lexicographic comparison by code point. -/
def lexLtB : List Char → List Char → Bool
  | [], [] => false
  | [], _ :: _ => true
  | _ :: _, [] => false
  | a :: as, b :: bs =>
    if a.toNat < b.toNat then true
    else if b.toNat < a.toNat then false
    else lexLtB as bs

/-- Python string `<=` as the order used by `sorted`. -/
def strLe (a b : String) : Prop := lexLtB b.data a.data = false

instance : DecidableRel strLe :=
  fun a b => inferInstanceAs (Decidable (lexLtB b.data a.data = false))

/-- Python `sorted` on filenames: ascending code-point lexicographic order. -/
def sortedAsc (l : List String) : List String := l.insertionSort strLe

/-- The filenames the processor visits (process.py lines 52-53):
`sorted(os.listdir(raw_dir))` filtered to names ending in `.html`;
every other entry is skipped by `continue` with no output and no log. -/
def procSelection (listing : List String) : List String :=
  (sortedAsc listing).filter (fun f => hasExt f ".html")

/-- The filenames the analyzer loads (analyze.py lines 41-42):
`sorted(os.listdir(pdir))` filtered to names ending in `.json`. -/
def loadSelection (listing : List String) : List String :=
  (sortedAsc listing).filter (fun f => hasExt f ".json")

/-- A write performed by the processor: either a per-document record at its
output path, or the `process_complete.json` marker listing the produced
paths. -/
inductive WEvent where
  | record (path : String) (doc : ProcessedDoc)
  | marker (files : List String)
deriving DecidableEq

/-- The processor loop over the selected filenames (process.py lines
52-85): each file is read (`Except.error` models an uncaught exception
from `open`/`read`, which aborts the loop at that point — the source has
no `try`), its record is written, and its output path is appended to
`processed`. -/
def processLoop (read : String → Except String String) :
    List String → List WEvent → List String → List WEvent × List String × Option String
  | [], evs, outs => (evs, outs, none)
  | f :: fs, evs, outs =>
    match read f with
    | Except.error e => (evs, outs, some e)
    | Except.ok html =>
      processLoop read fs (evs ++ [WEvent.record (outName f) (extractDoc f html)])
        (outs ++ [outName f])

/-- Embeds `main` of process.py once the upstream marker exists: the write
trace of one pass (records in visit order, then the marker naming all
produced paths), or the trace up to the uncaught exception that aborted
the run (in which case no marker is written). -/
def processRun (listing : List String) (read : String → Except String String) :
    List WEvent × Option String :=
  match processLoop read (procSelection listing) [] [] with
  | (evs, outs, none) => (evs ++ [WEvent.marker outs], none)
  | (evs, _, some e) => (evs, some e)

/-- Composition used by the Analysis Stage: load the `.json` records of the
processed-store listing in sorted order (analyze.py lines 41-47, with
`textOf` giving each record's `text` field) and run the analysis. -/
def analyzeFrom (listing : List String) (textOf : String → String) : Except String Report :=
  analyzeMain ((loadSelection listing).map (fun f => (f, textOf f)))

/-! ### The report produced on the no-error path -/

/-- The report `main` of analyze.py writes when the similarity loop body
never executes (fewer than two documents); its fields are exactly the
expressions of analyze.py lines 67-81. -/
def reportOf (docs : List (String × String)) : Report :=
  let ds := docs.map (fun d => (d.1, pyTokens d.2))
  let allToks := corpusTokens ds
  let total_words := allToks.length
  { documents_processed := ds.length
    total_words := total_words
    unique_words := (counterItems allToks).length
    top_100_words := (most_common 100 allToks).map
      (fun p => FreqEntry.mk p.1 p.2 (wordFrequency p.2 total_words))
    document_similarity := []
    top_bigrams := (most_common 50 ((ds.map (fun d => ngrams d.2 2)).flatten)).map
      (fun p => CountEntry.mk p.1 p.2)
    top_trigrams := (most_common 50 ((ds.map (fun d => ngrams d.2 3)).flatten)).map
      (fun p => CountEntry.mk p.1 p.2)
    readability :=
      { avg_sentence_length := avgSentenceLen total_words
        avg_word_length := avgWordLen allToks
        complexity_score := avgSentenceLen total_words * avgWordLen allToks } }

/-- The report for an empty processed store. -/
def emptyReport : Report :=
  { documents_processed := 0, total_words := 0, unique_words := 0,
    top_100_words := [], document_similarity := [], top_bigrams := [],
    top_trigrams := [],
    readability := { avg_sentence_length := 0, avg_word_length := 0,
                     complexity_score := 0 } }

/-- The report for a store holding exactly one record with empty text. -/
def oneEmptyDocReport : Report :=
  { documents_processed := 1, total_words := 0, unique_words := 0,
    top_100_words := [], document_similarity := [], top_bigrams := [],
    top_trigrams := [],
    readability := { avg_sentence_length := 0, avg_word_length := 0,
                     complexity_score := 0 } }

/-- The end-to-end sample document of the spec. -/
def sampleHtml : String :=
  "<p>Hello world! Visit <a href=\"http://x.com\">here</a>.</p>"

/-- A raw store in which `a.html` cannot be read (the `open`/`read` raises
an OSError) while every other file reads fine. -/
def failingRead : String → Except String String := fun f =>
  if f = "a.html" then Except.error "OSError: unreadable file"
  else Except.ok "<p>x</p>"

/-! ### Order lemmas for the lexicographic comparison -/

theorem lexLtB_asymm : ∀ s t : List Char, lexLtB s t = true → lexLtB t s = false := by
  intro s
  induction s with
  | nil =>
    intro t h
    cases t with
    | nil => simp [lexLtB] at h
    | cons b bs => simp [lexLtB]
  | cons a as ih =>
    intro t h
    cases t with
    | nil => simp [lexLtB] at h
    | cons b bs =>
      by_cases h1 : a.toNat < b.toNat
      · have h2 : ¬ b.toNat < a.toNat := by omega
        simp [lexLtB, h1, h2]
      · by_cases h2 : b.toNat < a.toNat
        · simp [lexLtB, h1, h2] at h
        · simp [lexLtB, h1, h2] at h ⊢
          exact ih bs h

theorem lexLtB_trans :
    ∀ s t u : List Char, lexLtB s t = true → lexLtB t u = true → lexLtB s u = true := by
  intro s
  induction s with
  | nil =>
    intro t u h1 h2
    cases u with
    | nil =>
      cases t with
      | nil => simp [lexLtB] at h1
      | cons b bs => simp [lexLtB] at h2
    | cons c cs => simp [lexLtB]
  | cons a as ih =>
    intro t u h1 h2
    cases t with
    | nil => simp [lexLtB] at h1
    | cons b bs =>
      cases u with
      | nil => simp [lexLtB] at h2
      | cons c cs =>
        by_cases hab2 : a.toNat < b.toNat
        · by_cases hbc2 : b.toNat < c.toNat
          · have hac : a.toNat < c.toNat := by omega
            simp [lexLtB, hac]
          · by_cases hcb : c.toNat < b.toNat
            · simp [lexLtB, hbc2, hcb] at h2
            · have hac : a.toNat < c.toNat := by omega
              simp [lexLtB, hac]
        · by_cases hba : b.toNat < a.toNat
          · simp [lexLtB, hab2, hba] at h1
          · simp [lexLtB, hab2, hba] at h1
            by_cases hbc2 : b.toNat < c.toNat
            · have hac : a.toNat < c.toNat := by omega
              simp [lexLtB, hac]
            · by_cases hcb : c.toNat < b.toNat
              · simp [lexLtB, hbc2, hcb] at h2
              · simp [lexLtB, hbc2, hcb] at h2
                have hac : ¬ a.toNat < c.toNat := by omega
                have hca : ¬ c.toNat < a.toNat := by omega
                simp [lexLtB, hac, hca]
                exact ih bs cs h1 h2

theorem lexLtB_conn :
    ∀ s t : List Char, lexLtB s t = false → lexLtB t s = false → s = t := by
  intro s
  induction s with
  | nil =>
    intro t h1 _
    cases t with
    | nil => rfl
    | cons b bs => simp [lexLtB] at h1
  | cons a as ih =>
    intro t h1 h2
    cases t with
    | nil => simp [lexLtB] at h2
    | cons b bs =>
      by_cases hab : a.toNat < b.toNat
      · simp [lexLtB, hab] at h1
      · by_cases hba : b.toNat < a.toNat
        · simp [lexLtB, hba] at h2
        · simp [lexLtB, hab, hba] at h1 h2
          have hn : a.toNat = b.toNat := by omega
          have hc : a = b := Char.eq_of_val_eq (UInt32.toNat.inj hn)
          rw [hc, ih bs h1 h2]

instance : IsTotal String strLe :=
  ⟨fun a b => by
    by_cases h : lexLtB b.data a.data = false
    · exact Or.inl h
    · have h' : lexLtB b.data a.data = true := by simpa using h
      exact Or.inr (lexLtB_asymm _ _ h')⟩

instance : IsTrans String strLe :=
  ⟨fun a b c hab hbc => by
    have hab2 : lexLtB b.data a.data = false := hab
    have hbc2 : lexLtB c.data b.data = false := hbc
    show lexLtB c.data a.data = false
    by_contra hca
    have hca2 : lexLtB c.data a.data = true := by
      cases h : lexLtB c.data a.data
      · exact absurd h hca
      · rfl
    by_cases hb : lexLtB b.data c.data = true
    · have hba := lexLtB_trans _ _ _ hb hca2
      rw [hba] at hab2
      exact Bool.noConfusion hab2
    · have hb2 : lexLtB b.data c.data = false := by
        cases h : lexLtB b.data c.data
        · rfl
        · exact absurd h hb
      have hbceq : b.data = c.data := lexLtB_conn _ _ hb2 hbc2
      rw [hbceq, hca2] at hab2
      exact Bool.noConfusion hab2⟩

theorem sortedAsc_sorted (l : List String) : (sortedAsc l).Sorted strLe :=
  List.sorted_insertionSort strLe l

theorem sortedAsc_perm (l : List String) : List.Perm (sortedAsc l) l :=
  List.perm_insertionSort strLe l

/-! ### Order and membership lemmas for the count-descending sort -/

theorem mem_insByCount {z x : String × Nat} :
    ∀ {l : List (String × Nat)}, z ∈ insByCount x l ↔ z = x ∨ z ∈ l := by
  intro l
  induction l with
  | nil => simp [insByCount]
  | cons y ys ih =>
    by_cases hc : y.2 ≤ x.2
    · simp [insByCount, hc]
    · simp [insByCount, hc, ih]
      tauto

theorem pairwise_insByCount (x : String × Nat) :
    ∀ l : List (String × Nat), l.Pairwise (fun a b => b.2 ≤ a.2) →
    (insByCount x l).Pairwise (fun a b => b.2 ≤ a.2) := by
  intro l
  induction l with
  | nil => intro _; simp [insByCount]
  | cons y ys ih =>
    intro h
    rcases List.pairwise_cons.mp h with ⟨hy, hys⟩
    by_cases hc : y.2 ≤ x.2
    · simp only [insByCount, if_pos hc]
      refine List.pairwise_cons.mpr ⟨?_, h⟩
      intro z hz
      rcases List.mem_cons.mp hz with hz | hz
      · rw [hz]; exact hc
      · exact le_trans (hy z hz) hc
    · simp only [insByCount, if_neg hc]
      refine List.pairwise_cons.mpr ⟨?_, ih hys⟩
      intro z hz
      rcases mem_insByCount.mp hz with hz | hz
      · rw [hz]; omega
      · exact hy z hz

theorem pairwise_isortDesc :
    ∀ l : List (String × Nat), (isortDesc l).Pairwise (fun a b => b.2 ≤ a.2) := by
  intro l
  induction l with
  | nil => simp [isortDesc]
  | cons x xs ih => exact pairwise_insByCount x _ ih

theorem most_common_pairwise (n : Nat) (ws : List String) :
    (most_common n ws).Pairwise (fun a b => b.2 ≤ a.2) :=
  (pairwise_isortDesc (counterItems ws)).sublist (List.take_sublist n _)

theorem most_common_length (n : Nat) (ws : List String) :
    (most_common n ws).length ≤ n := by
  rw [most_common, List.length_take]
  exact min_le_left _ _

/-! ### The counter vocabulary: membership, nodup, and the weighted sum -/

theorem vocabAux_mem (ws : List String) :
    ∀ (acc : List String) (x : String),
    (x ∈ ws.foldl (fun acc w => if acc.contains w then acc else acc ++ [w]) acc) ↔
      x ∈ acc ∨ x ∈ ws := by
  induction ws with
  | nil => intro acc x; simp
  | cons w ws ih =>
    intro acc x
    simp only [List.foldl_cons]
    by_cases hc : acc.contains w
    · rw [if_pos hc, ih]
      have hw : w ∈ acc := List.elem_iff.mp hc
      simp only [List.mem_cons]
      constructor
      · rintro (h | h)
        · exact Or.inl h
        · exact Or.inr (Or.inr h)
      · rintro (h | h | h)
        · exact Or.inl h
        · exact Or.inl (h ▸ hw)
        · exact Or.inr h
    · rw [if_neg hc, ih]
      simp only [List.mem_append, List.mem_singleton, List.mem_cons]
      tauto

theorem vocabAux_nodup (ws : List String) :
    ∀ acc : List String, acc.Nodup →
    (ws.foldl (fun acc w => if acc.contains w then acc else acc ++ [w]) acc).Nodup := by
  induction ws with
  | nil => intro acc h; simpa using h
  | cons w ws ih =>
    intro acc h
    simp only [List.foldl_cons]
    by_cases hc : acc.contains w
    · rw [if_pos hc]; exact ih _ h
    · rw [if_neg hc]
      refine ih _ ?_
      rw [List.nodup_append]
      refine ⟨h, List.nodup_singleton w, ?_⟩
      intro x hx hxw
      rw [List.mem_singleton] at hxw
      exact hc (List.elem_iff.mpr (hxw ▸ hx))

theorem counterItems_key_mem (ws : List String) (x : String) :
    (∃ c, (x, c) ∈ counterItems ws) ↔ x ∈ ws := by
  rw [counterItems]
  constructor
  · rintro ⟨c, hc⟩
    rcases List.mem_map.mp hc with ⟨w, hw, hpair⟩
    have hwx : w = x := congrArg Prod.fst hpair
    subst hwx
    exact ((vocabAux_mem ws [] w).mp hw).resolve_left (by simp)
  · intro hx
    refine ⟨ws.count x, List.mem_map.mpr ⟨x, ?_, rfl⟩⟩
    exact (vocabAux_mem ws [] x).mpr (Or.inr hx)

theorem sum_counterItems_mul (ws : List String) (f : String → Nat) :
    ((counterItems ws).map (fun p => p.2 * f p.1)).sum = (ws.map f).sum := by
  rw [counterItems, List.map_map]
  have hnd : (ws.foldl (fun acc w => if acc.contains w then acc else acc ++ [w]) []).Nodup :=
    vocabAux_nodup ws [] List.nodup_nil
  have hts : (ws.foldl (fun acc w => if acc.contains w then acc else acc ++ [w]) []).toFinset =
      ws.toFinset := by
    apply Finset.ext
    intro x
    simp only [List.mem_toFinset]
    rw [vocabAux_mem ws [] x]
    simp
  rw [← List.sum_toFinset _ hnd, hts, Finset.sum_list_map_count]
  apply Finset.sum_congr rfl
  intro x _
  simp [smul_eq_mul, Function.comp]

/-! ### Jaccard lemmas -/

theorem jaccard_self_of_ne_nil (A : List String) (h : A ≠ []) :
    jaccard_similarity A A = 1 := by
  rw [jaccard_similarity]
  simp only [Finset.inter_self, Finset.union_self]
  have hne : A.toFinset ≠ ∅ := by
    rw [Ne, List.toFinset_eq_empty_iff]
    exact h
  rw [if_pos hne]
  have hcard : (A.toFinset.card : ℚ) ≠ 0 := by
    simp only [ne_eq, Nat.cast_eq_zero, Finset.card_eq_zero]
    exact hne
  exact div_self hcard

theorem jaccard_comm (A B : List String) :
    jaccard_similarity A B = jaccard_similarity B A := by
  rw [jaccard_similarity, jaccard_similarity]
  rw [Finset.inter_comm, Finset.union_comm]

theorem jaccard_nil_nil : jaccard_similarity [] [] = 0 := by
  rw [jaccard_similarity]
  simp

/-! ### Processor loop lemmas -/

theorem processLoop_none (read : String → Except String String) :
    ∀ (fs : List String) (evs0 : List WEvent) (outs0 : List String)
      (evs : List WEvent) (outs : List String),
    processLoop read fs evs0 outs0 = (evs, outs, none) →
    ∃ recs : List (String × ProcessedDoc),
      evs = evs0 ++ recs.map (fun p => WEvent.record p.1 p.2) ∧
      outs = outs0 ++ recs.map Prod.fst ∧
      recs.map Prod.fst = fs.map outName := by
  intro fs
  induction fs with
  | nil =>
    intro evs0 outs0 evs outs h
    rw [processLoop] at h
    injection h with h1 h2
    injection h2 with h2 _
    exact ⟨[], by simp [← h1, ← h2]⟩
  | cons f fs ih =>
    intro evs0 outs0 evs outs h
    rw [processLoop] at h
    cases hr : read f with
    | error e => rw [hr] at h; injection h with _ h2; injection h2 with _ h3; cases h3
    | ok html =>
      rw [hr] at h
      rcases ih _ _ _ _ h with ⟨recs, h1, h2, h3⟩
      refine ⟨(outName f, extractDoc f html) :: recs, ?_, ?_, ?_⟩
      · rw [h1]; simp
      · rw [h2]; simp
      · simp [h3]

theorem processLoop_content (content : String → String) :
    ∀ (fs : List String) (evs0 : List WEvent) (outs0 : List String),
    processLoop (fun f => Except.ok (content f)) fs evs0 outs0 =
      (evs0 ++ fs.map (fun f => WEvent.record (outName f) (extractDoc f (content f))),
       outs0 ++ fs.map outName, none) := by
  intro fs
  induction fs with
  | nil => intro evs0 outs0; simp [processLoop]
  | cons f fs ih =>
    intro evs0 outs0
    rw [processLoop]
    dsimp only
    rw [ih]
    simp

theorem analyzeMain_eq_ok (docs : List (String × String)) (hlen : docs.length < 2) :
    analyzeMain docs = Except.ok (reportOf docs) := by
  simp only [analyzeMain, simLoop]
  rw [if_neg (by simp only [List.length_map]; omega)]
  rfl

theorem analyzeMain_ok {docs : List (String × String)} {r : Report}
    (h : analyzeMain docs = Except.ok r) : r = reportOf docs := by
  simp only [analyzeMain, simLoop] at h
  by_cases hn : 2 ≤ (docs.map (fun d => (d.1, pyTokens d.2))).length
  · rw [if_pos hn] at h
    cases h
  · rw [if_neg hn] at h
    exact ((Except.ok.inj h).symm : r = reportOf docs)

theorem reportOf_nil : reportOf [] = emptyReport := by
  have h1 : avgSentenceLen 0 = 0 := by simp [avgSentenceLen, sentenceEst]
  simp [reportOf, emptyReport, corpusTokens, counterItems, most_common, isortDesc,
    avgWordLen, h1]

theorem analyzeMain_nil : analyzeMain [] = Except.ok emptyReport := by
  rw [analyzeMain_eq_ok [] (by decide), reportOf_nil]

theorem reportOf_one_empty : reportOf [("a.json", "")] = oneEmptyDocReport := by
  have hp : pyTokens "" = [] := rfl
  have h1 : avgSentenceLen 0 = 0 := by simp [avgSentenceLen, sentenceEst]
  simp [reportOf, oneEmptyDocReport, corpusTokens, counterItems, most_common, isortDesc,
    avgWordLen, ngrams, hp, h1]

theorem analyzeMain_one_empty :
    analyzeMain [("a.json", "")] = Except.ok oneEmptyDocReport := by
  rw [analyzeMain_eq_ok _ (by decide), reportOf_one_empty]

/-! ### Claim theorems -/

/-- C1: the Analysis Stage is claimed to compute the Jaccard index for every
unordered pair of distinct documents and record it in the report. In the
code the loop body calls the undefined name `jaccard`, so on any corpus
with at least two documents the run aborts with a NameError and no report
is written: here, a concrete two-document corpus. -/
theorem C1_similarity_nameerror :
    analyzeMain [("a.json", "alpha beta"), ("b.json", "beta gamma")] =
      Except.error "NameError: name jaccard is not defined" := by
  decide

/-- C2: the Extraction Stage writes the per-document records one by one, in
visit order, and publishes the process-complete marker — listing exactly
the produced artifact paths — strictly after every record of the batch. -/
theorem C2_artifacts_before_marker (listing : List String)
    (read : String → Except String String) (evs : List WEvent)
    (h : processRun listing read = (evs, none)) :
    ∃ recs : List (String × ProcessedDoc),
      evs = recs.map (fun p => WEvent.record p.1 p.2) ++
        [WEvent.marker (recs.map Prod.fst)] ∧
      recs.map Prod.fst = (procSelection listing).map outName := by
  rw [processRun] at h
  cases hp : processLoop read (procSelection listing) [] [] with
  | mk evs2 rest =>
    cases rest with
    | mk outs2 err =>
      rw [hp] at h
      cases err with
      | none =>
        dsimp only at h
        injection h with h1 _
        rcases processLoop_none read _ _ _ _ _ hp with ⟨recs, e1, e2, e3⟩
        refine ⟨recs, ?_, e3⟩
        rw [← h1, e1, e2]
        simp
      | some e =>
        dsimp only at h
        injection h with _ h2
        cases h2

theorem C2_witness :
    ∃ recs : List (String × ProcessedDoc),
      [WEvent.record "/shared/processed/a.json" (extractDoc "a.html" ""),
       WEvent.marker ["/shared/processed/a.json"]] =
        recs.map (fun p => WEvent.record p.1 p.2) ++
          [WEvent.marker (recs.map Prod.fst)] ∧
      recs.map Prod.fst = (procSelection ["a.html"]).map outName :=
  C2_artifacts_before_marker ["a.html"] (fun _ => Except.ok "")
    [WEvent.record "/shared/processed/a.json" (extractDoc "a.html" ""),
     WEvent.marker ["/shared/processed/a.json"]] (by decide)

/-- C3 counterexample: for the single-document corpus whose text is
`"b a"`, both tokens have count 1 and the code emits the table in
first-occurrence order `b, a`, although `a` is lexically smaller — so the
tables are not ordered by (descending count, ascending key). -/
theorem C3_counterexample :
    (analyzeMain [("d.json", "b a")]).map
        (fun r => r.top_100_words.map (fun e => (e.word, e.count))) =
      Except.ok [("b", 1), ("a", 1)] ∧
    ¬ List.Pairwise
        (fun a b : String × Nat =>
          b.2 < a.2 ∨ (a.2 = b.2 ∧ lexLtB a.1.data b.1.data = true))
        [("b", 1), ("a", 1)] := by
  constructor
  · decide
  · decide

/-- C3 (amended): in every report the word-frequency table has at most 100
entries and the bigram and trigram tables at most 50 each, and all three
are ordered by non-increasing count; ties are left in first-occurrence
order of the key, not resorted by ascending key. -/
theorem C3_table_bounds_and_order (docs : List (String × String)) (r : Report)
    (h : analyzeMain docs = Except.ok r) :
    r.top_100_words.length ≤ 100 ∧
    r.top_bigrams.length ≤ 50 ∧
    r.top_trigrams.length ≤ 50 ∧
    r.top_100_words.Pairwise (fun a b => b.count ≤ a.count) ∧
    r.top_bigrams.Pairwise (fun a b => b.count ≤ a.count) ∧
    r.top_trigrams.Pairwise (fun a b => b.count ≤ a.count) := by
  have hr := analyzeMain_ok h
  subst hr
  simp only [reportOf]
  refine ⟨?_, ?_, ?_, ?_, ?_, ?_⟩
  · rw [List.length_map]; exact most_common_length _ _
  · rw [List.length_map]; exact most_common_length _ _
  · rw [List.length_map]; exact most_common_length _ _
  · rw [List.pairwise_map]; exact most_common_pairwise _ _
  · rw [List.pairwise_map]; exact most_common_pairwise _ _
  · rw [List.pairwise_map]; exact most_common_pairwise _ _

theorem C3_witness :
    emptyReport.top_100_words.length ≤ 100 ∧
    emptyReport.top_bigrams.length ≤ 50 ∧
    emptyReport.top_trigrams.length ≤ 50 ∧
    emptyReport.top_100_words.Pairwise (fun a b => b.count ≤ a.count) ∧
    emptyReport.top_bigrams.Pairwise (fun a b => b.count ≤ a.count) ∧
    emptyReport.top_trigrams.Pairwise (fun a b => b.count ≤ a.count) :=
  C3_table_bounds_and_order [] emptyReport analyzeMain_nil

/-- C4: every derived ratio of the pipeline yields `0.0` at a zero
denominator: the processor's `avg_word_length` with no words, a word
frequency with `total_words = 0`, the Jaccard similarity of two empty
token sets, the average sentence length at zero estimated sentences, the
analyzer's average word length over no tokens, and hence the complexity
score built from them. -/
theorem C4_zero_denominators :
    procAvgWordLen [] = 0 ∧
    (∀ c : Nat, wordFrequency c 0 = 0) ∧
    jaccard_similarity [] [] = 0 ∧
    avgSentenceLen 0 = 0 ∧
    avgWordLen [] = 0 ∧
    avgSentenceLen 0 * avgWordLen [] = 0 := by
  have h1 : avgSentenceLen 0 = 0 := by simp [avgSentenceLen, sentenceEst]
  have h2 : avgWordLen [] = 0 := by simp [avgWordLen, counterItems]
  refine ⟨?_, ?_, jaccard_nil_nil, h1, h2, ?_⟩
  · simp [procAvgWordLen]
  · intro c; simp [wordFrequency]
  · rw [h1, h2, mul_zero]

/-- C5: the similarity function satisfies `similarity(A, A) = 1` for every
non-empty token set `A`, `similarity(∅, ∅) = 0`, and symmetry for all
pairs. -/
theorem C5_similarity_algebra :
    (∀ A : List String, A ≠ [] → jaccard_similarity A A = 1) ∧
    jaccard_similarity [] [] = 0 ∧
    (∀ A B : List String, jaccard_similarity A B = jaccard_similarity B A) :=
  ⟨jaccard_self_of_ne_nil, jaccard_nil_nil, jaccard_comm⟩

theorem C5_witness : jaccard_similarity ["a"] ["a"] = 1 :=
  C5_similarity_algebra.1 ["a"] (by decide)

/-- C6: on an empty processed store (readiness marker present, no records)
the Analysis Stage completes without error and writes the report with
`total_words = 0`, `unique_words = 0`, empty frequency, similarity, bigram
and trigram tables, and all readability fields `0.0`. -/
theorem C6_empty_corpus (textOf : String → String) :
    analyzeFrom [] textOf = Except.ok emptyReport := by
  show analyzeMain [] = Except.ok emptyReport
  exact analyzeMain_nil

/-- C7: on the document `<p>Hello world! Visit <a
href="http://x.com">here</a>.</p>` extraction yields the text
`"Hello world! Visit here ."`, the link list `["http://x.com"]`,
`word_count = 4`, `sentence_count = 2` and `paragraph_count = 1`. -/
theorem C7_sample_extraction :
    (extractDoc "doc.html" sampleHtml).text = "Hello world! Visit here ." ∧
    (extractDoc "doc.html" sampleHtml).links = ["http://x.com"] ∧
    (extractDoc "doc.html" sampleHtml).word_count = 4 ∧
    (extractDoc "doc.html" sampleHtml).sentence_count = 2 ∧
    (extractDoc "doc.html" sampleHtml).paragraph_count = 1 :=
  ⟨by decide, by decide, by decide, by decide, by decide⟩

/-- C8: the claim says an unreadable document is skipped with a logged
warning and the batch continues. In the code the read is not guarded by
any `try`, so the exception propagates: with `a.html` unreadable the run
aborts before writing anything — `b.html` is never processed, no record
and no marker is written, and nothing is logged. -/
theorem C8_unreadable_aborts :
    processRun ["a.html", "b.html"] failingRead =
      ([], some "OSError: unreadable file") := by
  decide

/-- C9: whenever the analysis run produces a report, its readability block
satisfies the specified formulas: with `total_words ≠ 0` the estimated
sentence count is `max 1 (total_words / 20)`, the average sentence length
is `total_words` over that estimate, the average word length is the
occurrence-weighted mean token length (total token characters over
`total_words`), and the complexity score is their product; with
`total_words = 0` the estimate is 0 and the average sentence length 0. -/
theorem C9_readability_formulas (docs : List (String × String)) (r : Report)
    (h : analyzeMain docs = Except.ok r) :
    (r.total_words ≠ 0 →
      sentenceEst r.total_words = max 1 (r.total_words / 20) ∧
      r.readability.avg_sentence_length =
        (r.total_words : ℚ) / ((max 1 (r.total_words / 20) : Nat) : ℚ) ∧
      r.readability.avg_word_length =
        ((((corpusTokens (docs.map (fun d => (d.1, pyTokens d.2)))).map
            String.length).sum : Nat) : ℚ) / (r.total_words : ℚ) ∧
      r.readability.complexity_score =
        r.readability.avg_sentence_length * r.readability.avg_word_length) ∧
    (r.total_words = 0 →
      sentenceEst r.total_words = 0 ∧
      r.readability.avg_sentence_length = 0) := by
  have hr := analyzeMain_ok h
  subst hr
  simp only [reportOf]
  constructor
  · intro hz
    refine ⟨?_, ?_, ?_, by trivial⟩
    · rw [sentenceEst, if_pos hz]
    · have hest : sentenceEst (corpusTokens
          (docs.map (fun d => (d.1, pyTokens d.2)))).length ≠ 0 := by
        rw [sentenceEst, if_pos hz]; omega
      rw [avgSentenceLen, if_pos hest, sentenceEst, if_pos hz]
    · rw [avgWordLen]
      simp only [if_pos hz]
      rw [sum_counterItems_mul]
  · intro hz
    rw [hz]
    constructor
    · simp [sentenceEst]
    · simp [avgSentenceLen, sentenceEst]

theorem C9_witness :
    (oneEmptyDocReport.total_words ≠ 0 →
      sentenceEst oneEmptyDocReport.total_words =
        max 1 (oneEmptyDocReport.total_words / 20) ∧
      oneEmptyDocReport.readability.avg_sentence_length =
        (oneEmptyDocReport.total_words : ℚ) /
          ((max 1 (oneEmptyDocReport.total_words / 20) : Nat) : ℚ) ∧
      oneEmptyDocReport.readability.avg_word_length =
        ((((corpusTokens ([("a.json", "")].map (fun d => (d.1, pyTokens d.2)))).map
            String.length).sum : Nat) : ℚ) / (oneEmptyDocReport.total_words : ℚ) ∧
      oneEmptyDocReport.readability.complexity_score =
        oneEmptyDocReport.readability.avg_sentence_length *
          oneEmptyDocReport.readability.avg_word_length) ∧
    (oneEmptyDocReport.total_words = 0 →
      sentenceEst oneEmptyDocReport.total_words = 0 ∧
      oneEmptyDocReport.readability.avg_sentence_length = 0) :=
  C9_readability_formulas [("a.json", "")] oneEmptyDocReport analyzeMain_one_empty

/-- C10: the Extraction Stage visits exactly the raw-store entries whose
name ends in `.html` and the Analysis Stage loads exactly the entries
whose name ends in `.json`, both in ascending lexicographic filename
order; an entry with any other extension yields no record, no marker
entry, and no other write. -/
theorem C10_selection (listing : List String) :
    (procSelection listing).Pairwise strLe ∧
    (∀ f, f ∈ procSelection listing ↔ f ∈ listing ∧ hasExt f ".html" = true) ∧
    (loadSelection listing).Pairwise strLe ∧
    (∀ f, f ∈ loadSelection listing ↔ f ∈ listing ∧ hasExt f ".json" = true) ∧
    (∀ content : String → String,
      processRun listing (fun f => Except.ok (content f)) =
        ((procSelection listing).map
            (fun f => WEvent.record (outName f) (extractDoc f (content f))) ++
          [WEvent.marker ((procSelection listing).map outName)], none)) := by
  refine ⟨?_, ?_, ?_, ?_, ?_⟩
  · exact (sortedAsc_sorted listing).filter _
  · intro f
    rw [procSelection, List.mem_filter, (sortedAsc_perm listing).mem_iff]
  · exact (sortedAsc_sorted listing).filter _
  · intro f
    rw [loadSelection, List.mem_filter, (sortedAsc_perm listing).mem_iff]
  · intro content
    rw [processRun, processLoop_content]
    dsimp only
    simp
